import Mathlib

/-
Verification of the swirlyswirls particle-engine core.

Shallow embedding of src/swirlyswirls/compsys.py and src/swirlyswirls/zones.py.
2D vectors (pygame.Vector2) are modelled as pairs of rationals; the Python
int() truncation is modelled by truncQ; wall-clock countdown timers
(pgcooldown.Cooldown, an external capability) are modelled observationally:
each per-frame call receives the timer observations (hot/cold, normalized
progress) the code would query, since the source reads wall-clock state
rather than the frame delta.  The particle factory and the zone are
modelled as oracles: each spawn record in the output corresponds to exactly
one zone.emit call followed by one particle_factory call in the source.
-/

namespace Swirly

/-- Python int() applied to a rational: truncation toward zero. -/
def truncQ (q : ℚ) : ℤ := if 0 ≤ q then ⌊q⌋ else ⌈q⌉

/-- Linear interpolation, the module-level _lerp of compsys.py/zones.py. -/
def lerpQ (a b t : ℚ) : ℚ := (1 - t) * a + b * t

/-- Dot product of two 2D vectors. -/
def dot (a b : ℚ × ℚ) : ℚ := a.1 * b.1 + a.2 * b.2

/-- The emits-per-tick LerpThing (pgcooldown, external capability, modelled
from its interface: start value, end value, duration, easing; duration 0
means the start value is always used). -/
structure Ept where
  durDuration : ℚ
  vt0 : ℚ
  vt1 : ℚ
  ease : ℚ → ℚ

/-- Calling the LerpThing: eased interpolation at the normalized progress t
of its duration timer when the duration is nonzero, else always vt0. -/
def eptCall (e : Ept) (t : ℚ) : ℚ :=
  if e.durDuration ≠ 0 then lerpQ e.vt0 e.vt1 (e.ease t) else e.vt0

/-- Static configuration of an Emitter (compsys.py class Emitter):
the cycled ticklist, the ept driver, and the inherit_momentum bit mask. -/
structure EmitterCfg where
  ticklist : List ℚ
  ept : Ept
  inherit_momentum : ℕ

/-- Mutable state of an Emitter: the currently armed tick duration, the
cursor into the cyclic ticklist, and the remaining emits budget
(-1 = unlimited, 0 = exhausted). -/
structure EmitterState where
  tickDuration : ℚ
  tickerIdx : ℕ
  remaining : ℤ
deriving DecidableEq

/-- Per-frame observations handed to emitter_system: hotness of the tick
timer, coldness and normalized progress of the ept duration timer, the
normalized progress of the optional lifetime component, the optional momentum
component, the position of the emitter entity, and the zone sampling oracle
(zoneSample t i = the pair ZoneBeam-style emit would return on the i-th
call of this frame, when called with normalized time t). -/
structure FrameInput where
  tickHot : Bool
  durationCold : Bool
  durationNormalized : ℚ
  hasLifetime : Bool
  lifetimeNormalized : ℚ
  hasMomentum : Bool
  entityMomentum : ℚ × ℚ
  position : ℚ × ℚ
  zoneSample : ℚ → ℕ → (ℚ × ℚ) × (ℚ × ℚ)

/-- One particle_factory invocation: the t, position and momentum passed. -/
structure Spawn where
  t : ℚ
  position : ℚ × ℚ
  momentum : ℚ × ℚ
deriving DecidableEq

/-- Momentum composition of emitter_system lines 177-189: e_momentum is the
entity momentum when bit 0 is set and the component exists, else the zero
vector; the spawn momentum adds e_momentum when bit 0 is set and the zone
momentum when bit 1 is set. -/
def composeMomentum (inherit : ℕ) (hasM : Bool) (eM zM : ℚ × ℚ) : ℚ × ℚ :=
  let e : ℚ × ℚ := if inherit &&& 1 ≠ 0 ∧ hasM then eM else (0, 0)
  let m : ℚ × ℚ := (0, 0)
  let m : ℚ × ℚ := if inherit &&& 1 ≠ 0 then (m.1 + e.1, m.2 + e.2) else m
  let m : ℚ × ℚ := if inherit &&& 2 ≠ 0 then (m.1 + zM.1, m.2 + zM.2) else m
  m

/-- The spawn loop (lines 182-191): n zone.emit calls at normalized time t,
each followed by one particle_factory call at the same t, at the emitter
position plus the zone offset, with the composed momentum. -/
def spawnBatch (cfg : EmitterCfg) (inp : FrameInput) (t : ℚ) (n : ℕ) :
    List Spawn :=
  (List.range n).map fun i =>
    let s := inp.zoneSample t i
    { t := t
      position := (inp.position.1 + s.1.1, inp.position.2 + s.1.2)
      momentum := composeMomentum cfg.inherit_momentum inp.hasMomentum
        inp.entityMomentum s.2 }

/-- Lines 171-191: emits = int(ept()); clamp by and subtract from the
remaining budget when it is positive; then run the spawn loop
(range of a negative count is empty, hence Int.toNat). -/
def emitSpawn (cfg : EmitterCfg) (st : EmitterState) (inp : FrameInput)
    (t : ℚ) : EmitterState × List Spawn :=
  let emits0 : ℤ := truncQ (eptCall cfg.ept t)
  let emits : ℤ := if 0 < st.remaining then min emits0 st.remaining else emits0
  let st' := if 0 < st.remaining
    then { st with remaining := st.remaining - emits } else st
  (st', spawnBatch cfg inp t emits.toNat)

/-- Line 150: emitter.tick.reset(next(emitter.ticker)) — re-arm the tick
timer with the next value of the cyclic ticklist and advance the cursor. -/
def rearm (cfg : EmitterCfg) (st : EmitterState) : EmitterState :=
  { st with
    tickDuration := cfg.ticklist.getD (st.tickerIdx % cfg.ticklist.length) 0
    tickerIdx := st.tickerIdx + 1 }

/-- emitter_system (compsys.py lines 147-191): return while the tick timer
is hot; otherwise re-arm it from the cyclic ticklist, stop if the budget is
exhausted, derive the normalized time t (duration timer if the ept has a
positive duration — stopping if it is cold — else the lifetime component,
else 0), and spawn. -/
def emitter_system (cfg : EmitterCfg) (st : EmitterState) (inp : FrameInput) :
    EmitterState × List Spawn :=
  if inp.tickHot then (st, [])
  else
    let st1 : EmitterState := rearm cfg st
    if st1.remaining = 0 then (st1, [])
    else
      if cfg.ept.durDuration ≠ 0 then
        if inp.durationCold then (st1, [])
        else emitSpawn cfg st1 inp inp.durationNormalized
      else
        emitSpawn cfg st1 inp
          (if inp.hasLifetime then inp.lifetimeNormalized else 0)

/-- Run emitter_system over a sequence of frames; returns the final state
and the per-frame spawn lists. -/
def emitterRun (cfg : EmitterCfg) (st : EmitterState) :
    List FrameInput → EmitterState × List (List Spawn)
  | [] => (st, [])
  | i :: is =>
    let r := emitter_system cfg st i
    let rest := emitterRun cfg r.1 is
    (rest.1, r.2 :: rest.2)

/-- Result of Emitter.__post_init__ (compsys.py lines 94-97): the tick
Cooldown starts cold with duration tick, the ticker cycles ticklist when it
is non-empty and otherwise falls back to cycling [tick], and remaining is
total_emits when given, else the sentinel -1. -/
structure EmitterInit where
  tickDuration : ℚ
  tickCold : Bool
  ticker : List ℚ
  remaining : ℤ
deriving DecidableEq

/-- Emitter.__post_init__: cycle(ticklist) if ticklist else cycle([tick]);
remaining = total_emits if total_emits is not None else -1. -/
def Emitter.postInit (tick : ℚ) (ticklist : List ℚ) (total_emits : Option ℤ) :
    EmitterInit :=
  { tickDuration := tick
    tickCold := true
    ticker := if ticklist.isEmpty then [tick] else ticklist
    remaining := total_emits.getD (-1) }

/-- ZoneBeam (zones.py lines 164-221).  pygame normalize() divides by the
Euclidean length, which is irrational in general; the field len carries that
length exactly where it is rational, and theorems hypothesize
len^2 = dot v v together with 0 < len. -/
structure ZoneBeam where
  v : ℚ × ℚ
  width : ℚ
  len : ℚ

/-- ZoneBeam.__post_init__ line 200: w = Vector2(v.y, v.x).normalize()*width
(note the source swaps the components instead of negating one). -/
def ZoneBeam.w (z : ZoneBeam) : ℚ × ℚ :=
  (z.v.2 / z.len * z.width, z.v.1 / z.len * z.width)

/-- ZoneBeam.emit lines 202-221 with the two random samples rp = rnd_p()
and rm = rnd_m(): v*rp plus w*(rm - 0.5) as position, w*(rm - 0.5) as
momentum. -/
def ZoneBeam.emit (z : ZoneBeam) (rp rm : ℚ) : (ℚ × ℚ) × (ℚ × ℚ) :=
  let a : ℚ × ℚ := (z.v.1 * rp, z.v.2 * rp)
  let w : ℚ × ℚ := (z.w.1 * (rm - 1/2), z.w.2 * (rm - 1/2))
  ((a.1 + w.1, a.2 + w.2), w)

/-- A pygame.Rect: integer left/top/width/height. -/
structure PyRect where
  left : ℤ
  top : ℤ
  width : ℤ
  height : ℤ
deriving DecidableEq

/-- pygame Rect.right = left + width. -/
def PyRect.right (r : PyRect) : ℤ := r.left + r.width

/-- pygame Rect.bottom = top + height. -/
def PyRect.bottom (r : PyRect) : ℤ := r.top + r.height

/-- pygame Rect.center: integer midpoint; pygame computes it with C int
division, which truncates toward zero. -/
def PyRect.center (r : PyRect) : ℤ × ℤ :=
  (r.left + Int.tdiv r.width 2, r.top + Int.tdiv r.height 2)

/-- ZoneRect.emit (zones.py lines 251-276) with two position samples
rp1, rp2 from rnd_p: both coordinates pass through Python int(), then
momentum = pos - Vector2(r.center). -/
def ZoneRect.emit (r : PyRect) (rp1 rp2 : ℚ) : (ℚ × ℚ) × (ℚ × ℚ) :=
  let pos : ℚ × ℚ :=
    ((truncQ ((r.width : ℚ) * (rp1 - 1/2)) : ℤ),
     (truncQ ((r.height : ℚ) * (rp2 - 1/2)) : ℤ))
  (pos, (pos.1 - ((r.center.1 : ℚ)), pos.2 - ((r.center.2 : ℚ))))

/-- container_system (compsys.py lines 250-287), returning the updated
(position, momentum).  The y block reads the momentum.x value as already
updated by the x block, exactly as the in-place mutation in the source
does; note the top-boundary guard tests momentum.x rather than
momentum.y, as in the source. -/
def container_system (container : PyRect) (position momentum : ℚ × ℚ)
    (sprite : PyRect) : (ℚ × ℚ) × (ℚ × ℚ) :=
  let x :=
    if (sprite.left : ℚ) < (container.left : ℚ) ∧ momentum.1 < 0 then
      (position.1 + -2 * (sprite.left : ℚ), -momentum.1)
    else if (container.right : ℚ) < (sprite.right : ℚ) ∧ 0 < momentum.1 then
      (position.1 + 2 * ((container.width : ℚ) - (sprite.right : ℚ)),
       -momentum.1)
    else (position.1, momentum.1)
  let y :=
    if (sprite.top : ℚ) < (container.top : ℚ) ∧ x.2 < 0 then
      (position.2 + -2 * (sprite.top : ℚ), -momentum.2)
    else if (container.bottom : ℚ) < (sprite.bottom : ℚ) ∧ 0 < momentum.2 then
      (position.2 + 2 * ((container.height : ℚ) - (sprite.bottom : ℚ)),
       -momentum.2)
    else (position.2, momentum.2)
  ((x.1, y.1), (x.2, y.2))

/-- The renderable image descriptor (tinyecs.compsys.RSAImage, external;
fields per spec section 6). -/
structure RSAI where
  rotate : ℚ
  scale : ℚ
  alpha : ℚ
  lock : Bool
deriving DecidableEq

/-- The view of a Particle component on one frame: the current value (.v) of
each of the optional rotate/scale/alpha LerpThing drivers, none when the
driver is absent. -/
structure ParticleFrame where
  rotate : Option ℚ
  scale : Option ℚ
  alpha : Option ℚ
deriving DecidableEq

/-- A single field write performed by particle_rsai_system. -/
inductive RsaiWrite where
  | lock (b : Bool)
  | rotate (v : ℚ)
  | scale (v : ℚ)
  | alpha (v : ℚ)
deriving DecidableEq

/-- Apply one write to the descriptor. -/
def applyWrite (r : RSAI) : RsaiWrite → RSAI
  | .lock b => { r with lock := b }
  | .rotate v => { r with rotate := v }
  | .scale v => { r with scale := v }
  | .alpha v => { r with alpha := v }

/-- The write sequence of particle_rsai_system (compsys.py lines 243-247):
lock := True, then each present channel in rotate/scale/alpha order, then
lock := False. -/
def rsaiWrites (p : ParticleFrame) : List RsaiWrite :=
  ([RsaiWrite.lock true]
    ++ (p.rotate.toList.map RsaiWrite.rotate)
    ++ (p.scale.toList.map RsaiWrite.scale)
    ++ (p.alpha.toList.map RsaiWrite.alpha))
  ++ [RsaiWrite.lock false]

/-- particle_rsai_system: fold the write sequence over the descriptor. -/
def particle_rsai_system (p : ParticleFrame) (r : RSAI) : RSAI :=
  (rsaiWrites p).foldl applyWrite r

/-- Repeated frames of particle_rsai_system for a particle whose only
present driver is alpha, whose per-frame values are the given list. -/
def rsaiAlphaIter (r0 : RSAI) (alphas : List ℚ) : RSAI :=
  alphas.foldl
    (fun r a => particle_rsai_system ⟨none, none, some a⟩ r) r0

/-- Truncation toward zero of a non-negative rational is non-negative. -/
lemma truncQ_nonneg {q : ℚ} (h : 0 ≤ q) : 0 ≤ truncQ q := by
  simp only [truncQ, if_pos h]
  exact Int.floor_nonneg.mpr h

/-- With the remaining budget non-positive, the spawn step leaves the state
untouched. -/
lemma emitSpawn_state_nonpos {cfg st inp t} (h : st.remaining ≤ 0) :
    (emitSpawn cfg st inp t).1 = st := by
  simp only [emitSpawn]
  rw [if_neg (not_lt.mpr h)]

/-- With a positive remaining budget and a non-negative rate, the spawn
step keeps the budget in [0, remaining]. -/
lemma emitSpawn_state_pos {cfg st inp t} (h : 0 < st.remaining)
    (hr : 0 ≤ eptCall cfg.ept t) :
    0 ≤ (emitSpawn cfg st inp t).1.remaining ∧
      (emitSpawn cfg st inp t).1.remaining ≤ st.remaining := by
  have h0 : 0 ≤ truncQ (eptCall cfg.ept t) := truncQ_nonneg hr
  simp only [emitSpawn, if_pos h]
  constructor <;> (simp; try omega)

/-- Re-arming the tick timer does not touch the remaining budget. -/
@[simp] lemma rearm_remaining (cfg : EmitterCfg) (st : EmitterState) :
    (rearm cfg st).remaining = st.remaining := rfl

/-- An exhausted emitter (remaining = 0) stays exhausted and spawns
nothing. -/
lemma emitter_system_zero {cfg st inp} (h : st.remaining = 0) :
    (emitter_system cfg st inp).1.remaining = 0 ∧
      (emitter_system cfg st inp).2 = [] := by
  unfold emitter_system
  by_cases ht : inp.tickHot <;> simp [ht, h]

/-- A non-positive (unlimited or exhausted) budget is never modified. -/
lemma emitter_system_nonpos {cfg st inp} (h : st.remaining ≤ 0) :
    (emitter_system cfg st inp).1.remaining = st.remaining := by
  have h1 : (rearm cfg st).remaining ≤ 0 := by simpa using h
  simp only [emitter_system]
  split_ifs
  · rfl
  · rfl
  · rfl
  · rw [emitSpawn_state_nonpos h1]; rfl
  · rw [emitSpawn_state_nonpos h1]; rfl
  · rw [emitSpawn_state_nonpos h1]; rfl

/-- With non-negative rates the budget never increases and never crosses
below zero from above. -/
lemma emitter_system_mono {cfg st inp}
    (hr : ∀ t, 0 ≤ eptCall cfg.ept t) :
    (emitter_system cfg st inp).1.remaining ≤ st.remaining ∧
      (0 ≤ st.remaining → 0 ≤ (emitter_system cfg st inp).1.remaining) := by
  by_cases hp : 0 < st.remaining
  · have hp1 : 0 < (rearm cfg st).remaining := by simpa using hp
    have key : ∀ t, 0 ≤ (emitSpawn cfg (rearm cfg st) inp t).1.remaining ∧
        (emitSpawn cfg (rearm cfg st) inp t).1.remaining ≤ st.remaining :=
      fun t => by
        have := @emitSpawn_state_pos cfg (rearm cfg st) inp t hp1 (hr t)
        rw [rearm_remaining] at this
        exact this
    simp only [emitter_system]
    split_ifs
    · exact ⟨le_refl _, fun h => h⟩
    · exact ⟨le_of_eq (rearm_remaining cfg st), fun h => by simpa using h⟩
    · exact ⟨le_of_eq (rearm_remaining cfg st), fun h => by simpa using h⟩
    · exact ⟨(key _).2, fun _ => (key _).1⟩
    · exact ⟨(key _).2, fun _ => (key _).1⟩
    · exact ⟨(key _).2, fun _ => (key _).1⟩
  · have h : st.remaining ≤ 0 := by omega
    rw [emitter_system_nonpos h]
    omega

/-- Over a whole run, an exhausted emitter stays exhausted and never
spawns. -/
lemma emitterRun_zero {cfg st} (l : List FrameInput) (h : st.remaining = 0) :
    (emitterRun cfg st l).1.remaining = 0 ∧
      ∀ sp ∈ (emitterRun cfg st l).2, sp = [] := by
  induction l generalizing st with
  | nil => simpa [emitterRun] using h
  | cons i is ih =>
    have hstep := @emitter_system_zero cfg st i h
    have := @ih (emitter_system cfg st i).1 hstep.1
    simp only [emitterRun, List.mem_cons]
    exact ⟨this.1, fun sp hsp => hsp.elim (fun e => e ▸ hstep.2) (this.2 sp)⟩

/-- Over a whole run with non-negative rates the budget never increases. -/
lemma emitterRun_mono {cfg st} (l : List FrameInput)
    (hr : ∀ t, 0 ≤ eptCall cfg.ept t) :
    (emitterRun cfg st l).1.remaining ≤ st.remaining := by
  induction l generalizing st with
  | nil => simp [emitterRun]
  | cons i is ih =>
    calc (emitterRun cfg (emitter_system cfg st i).1 is).1.remaining
        ≤ (emitter_system cfg st i).1.remaining := ih
      _ ≤ st.remaining := (emitter_system_mono hr).1

/-- Over a whole run, a negative (sentinel) budget is never modified. -/
lemma emitterRun_nonpos {cfg st} (l : List FrameInput)
    (h : st.remaining ≤ 0) :
    (emitterRun cfg st l).1.remaining = st.remaining := by
  induction l generalizing st with
  | nil => simp [emitterRun]
  | cons i is ih =>
    have hstep := @emitter_system_nonpos cfg st i h
    have := @ih (emitter_system cfg st i).1 (by omega)
    simp only [emitterRun]
    omega

/-- The spawn step only ever touches the remaining field of the state. -/
lemma emitSpawn_idx {cfg st inp t} :
    (emitSpawn cfg st inp t).1.tickerIdx = st.tickerIdx ∧
      (emitSpawn cfg st inp t).1.tickDuration = st.tickDuration := by
  simp only [emitSpawn]
  split_ifs <;> exact ⟨rfl, rfl⟩

/-- Once the tick timer is cold, the heartbeat is re-armed from the cyclic
ticklist no matter what the rest of the update does. -/
lemma emitter_system_rearm {cfg st inp} (ht : inp.tickHot = false) :
    (emitter_system cfg st inp).1.tickerIdx = st.tickerIdx + 1 ∧
      (emitter_system cfg st inp).1.tickDuration =
        cfg.ticklist.getD (st.tickerIdx % cfg.ticklist.length) 0 := by
  simp only [emitter_system, ht, Bool.false_eq_true, if_false]
  split_ifs
  · exact ⟨rfl, rfl⟩
  · exact ⟨rfl, rfl⟩
  · exact ⟨emitSpawn_idx.1, emitSpawn_idx.2⟩
  · exact ⟨emitSpawn_idx.1, emitSpawn_idx.2⟩
  · exact ⟨emitSpawn_idx.1, emitSpawn_idx.2⟩

/-- A positive-duration driver whose duration timer is cold spawns
nothing this frame. -/
lemma emitter_system_durCold {cfg st inp} (hd : cfg.ept.durDuration ≠ 0)
    (hc : inp.durationCold = true) :
    (emitter_system cfg st inp).2 = [] := by
  simp only [emitter_system]
  split_ifs <;> rfl

/-- A positive-duration driver with its duration timer cold on every frame
never spawns again: the cooldown never re-heats on its own. -/
lemma emitterRun_durCold {cfg st} (l : List FrameInput)
    (hd : cfg.ept.durDuration ≠ 0) (hc : ∀ j ∈ l, j.durationCold = true) :
    ∀ sp ∈ (emitterRun cfg st l).2, sp = [] := by
  induction l generalizing st with
  | nil => simp [emitterRun]
  | cons i is ih =>
    have hstep := @emitter_system_durCold cfg st i hd (hc i (by simp))
    have hrest := @ih (emitter_system cfg st i).1
      (fun j hj => hc j (by simp [hj]))
    simp only [emitterRun, List.mem_cons]
    exact fun sp hsp => hsp.elim (fun e => e ▸ hstep) (hrest sp)

/-- One frame of particle_rsai_system for an alpha-only particle: rotate
and scale are untouched, alpha is overwritten, the lock ends false. -/
lemma rsai_step (a : ℚ) (r : RSAI) :
    particle_rsai_system ⟨none, none, some a⟩ r
      = ⟨r.rotate, r.scale, a, false⟩ := rfl

/-- Starting from an unlocked descriptor, iterated alpha-only updates keep
it unlocked. -/
lemma rsaiAlphaIter_lock {r0 : RSAI} (l : List ℚ) (h : r0.lock = false) :
    (rsaiAlphaIter r0 l).lock = false := by
  induction l generalizing r0 with
  | nil => simpa [rsaiAlphaIter] using h
  | cons a as ih => exact @ih ⟨r0.rotate, r0.scale, a, false⟩ rfl

/-- Unfolding one frame of the alpha-only iteration. -/
lemma rsaiAlphaIter_cons (r0 : RSAI) (a : ℚ) (as : List ℚ) :
    rsaiAlphaIter r0 (a :: as)
      = rsaiAlphaIter ⟨r0.rotate, r0.scale, a, false⟩ as := rfl

/-- Truncation of W*(r - 1/2) stays within [-W/2, W/2] for a sample r in
[0,1) and non-negative W. -/
lemma truncQ_bounds {W r : ℚ} (hW : 0 ≤ W) (h0 : 0 ≤ r) (h1 : r < 1) :
    -(W / 2) ≤ (truncQ (W * (r - 1/2)) : ℚ)
      ∧ (truncQ (W * (r - 1/2)) : ℚ) ≤ W / 2 := by
  have hv1 : -(W / 2) ≤ W * (r - 1/2) := by nlinarith
  have hv2 : W * (r - 1/2) ≤ W / 2 := by nlinarith
  unfold truncQ
  split_ifs with h
  · constructor
    · have hf : (0 : ℚ) ≤ (⌊W * (r - 1/2)⌋ : ℚ) := by
        exact_mod_cast Int.floor_nonneg.mpr h
      linarith
    · exact le_trans (Int.floor_le _) hv2
  · push_neg at h
    constructor
    · exact le_trans hv1 (Int.le_ceil _)
    · have hc : (⌈W * (r - 1/2)⌉ : ℤ) ≤ 0 := by
        have := Int.ceil_le.mpr
          (by simpa using h.le : W * (r - 1/2) ≤ ((0 : ℤ) : ℚ))
        simpa using this
      have hcq : ((⌈W * (r - 1/2)⌉ : ℤ) : ℚ) ≤ 0 := by exact_mod_cast hc
      linarith

/-- Iterated alpha-only updates: rotate and scale keep their initial
values while alpha tracks the last driver value. -/
lemma rsaiAlphaIter_spec (r0 : RSAI) (alphas : List ℚ) :
    (rsaiAlphaIter r0 alphas).rotate = r0.rotate
    ∧ (rsaiAlphaIter r0 alphas).scale = r0.scale
    ∧ (rsaiAlphaIter r0 alphas).alpha = alphas.getLastD r0.alpha := by
  induction alphas generalizing r0 with
  | nil => exact ⟨rfl, rfl, rfl⟩
  | cons a as ih =>
    rw [rsaiAlphaIter_cons]
    have h := ih ⟨r0.rotate, r0.scale, a, false⟩
    exact ⟨h.1, h.2.1, by rw [h.2.2, List.getLastD_cons]⟩

/-- Every particle_rsai_system update returns with the lock cleared. -/
lemma particle_rsai_system_lock (p : ParticleFrame) (r : RSAI) :
    (particle_rsai_system p r).lock = false := by
  cases p with
  | mk ro sc al => cases ro <;> cases sc <;> cases al <;> rfl

/-- The write sequence of every update starts by setting the lock and ends
by clearing it. -/
lemma rsaiWrites_bracket (p : ParticleFrame) :
    (rsaiWrites p).head? = some (RsaiWrite.lock true)
    ∧ (rsaiWrites p).getLast? = some (RsaiWrite.lock false) := by
  constructor
  · cases p with
    | mk ro sc al => cases ro <;> cases sc <;> cases al <;> rfl
  · exact List.getLast?_concat _

/-- Emitter of the end-to-end scenario: tick_sequence [0.1], constant
emission rate 2 with zero duration, inherit_momentum 3. -/
def cfgA : EmitterCfg := ⟨[1/10], ⟨0, 2, 2, id⟩, 3⟩

/-- One frame with the clock exactly aligned: the tick timer is cold, the
owning entity has no lifetime and no momentum, the zone returns zeroes. -/
def inputA : FrameInput :=
  ⟨false, false, 0, false, 0, false, (0, 0), (0, 0), fun _ _ => ((0, 0), (0, 0))⟩

/-- C1: across any sequence of emitter_system updates the remaining-emits
counter never increases, the sentinel -1 is kept forever, and once the
counter is 0 it stays 0 and the particle factory (one spawn record per
invocation) is never invoked again.  The hypothesis is the data-model
contract that emission rates are non-negative. -/
theorem C1_remaining_monotone (cfg : EmitterCfg) (st : EmitterState)
    (l : List FrameInput) (hr : ∀ t, 0 ≤ eptCall cfg.ept t) :
    (emitterRun cfg st l).1.remaining ≤ st.remaining
    ∧ (st.remaining = -1 → (emitterRun cfg st l).1.remaining = -1)
    ∧ (st.remaining = 0 → (emitterRun cfg st l).1.remaining = 0
        ∧ ∀ sp ∈ (emitterRun cfg st l).2, sp = []) := by
  refine ⟨emitterRun_mono l hr, fun h => ?_, fun h => emitterRun_zero l h⟩
  rw [emitterRun_nonpos l (by omega), h]

/-- Witness for C1 at the scenario emitter with budget 5 and one frame. -/
theorem C1_remaining_monotone_witness :
    (emitterRun cfgA ⟨1/10, 0, 5⟩ [inputA]).1.remaining ≤ (5 : ℤ) :=
  (C1_remaining_monotone cfgA ⟨1/10, 0, 5⟩ [inputA]
    (fun _ => by norm_num [eptCall, cfgA])).1

/-- C2: the end-to-end scenario: tick_sequence [0.1], constant rate 2,
zero duration, remaining 5, clock aligned (timer cold each frame): the
four ticks spawn 2, 2, 1, 0 particles, remaining passes through 3, 1, 0,
and every later tick spawns nothing. -/
theorem C2_end_to_end :
    (emitterRun cfgA ⟨1/10, 0, 5⟩ [inputA, inputA, inputA, inputA]).2.map
        List.length = [2, 2, 1, 0]
    ∧ (emitterRun cfgA ⟨1/10, 0, 5⟩ [inputA]).1.remaining = 3
    ∧ (emitterRun cfgA ⟨1/10, 0, 5⟩ [inputA, inputA]).1.remaining = 1
    ∧ (emitterRun cfgA ⟨1/10, 0, 5⟩ [inputA, inputA, inputA]).1.remaining = 0
    ∧ ∀ more : List FrameInput, ∀ sp ∈
        (emitterRun cfgA
          (emitterRun cfgA ⟨1/10, 0, 5⟩ [inputA, inputA, inputA]).1
          more).2, sp = [] := by
  have h4 : (emitterRun cfgA ⟨1/10, 0, 5⟩ [inputA, inputA, inputA]).1.remaining
      = 0 := by
    norm_num [emitterRun, emitter_system, rearm, emitSpawn, eptCall, cfgA,
      inputA, truncQ, spawnBatch]
  refine ⟨?_, ?_, ?_, h4, fun more => (emitterRun_zero more h4).2⟩
  · norm_num [emitterRun, emitter_system, rearm, emitSpawn, eptCall, cfgA,
      inputA, truncQ, spawnBatch]
    decide
  · norm_num [emitterRun, emitter_system, rearm, emitSpawn, eptCall, cfgA,
      inputA, truncQ, spawnBatch]
  · norm_num [emitterRun, emitter_system, rearm, emitSpawn, eptCall, cfgA,
      inputA, truncQ, spawnBatch]

/-- Witness for C2: the concrete spawn counts of the four aligned ticks. -/
theorem C2_end_to_end_witness :
    (emitterRun cfgA ⟨1/10, 0, 5⟩ [inputA, inputA, inputA, inputA]).2.map
      List.length = [2, 2, 1, 0] :=
  C2_end_to_end.1

/-- C3: when the tick timer has gone cold the heartbeat is re-armed with
the next cyclic ticklist value unconditionally, and in the exhausted
(remaining = 0) and expired (positive duration, duration timer cold)
cases neither the zone nor the factory is invoked on this frame or later
frames (spawn records are exactly the zone.emit/particle_factory call
pairs). -/
theorem C3_rearm_unconditional (cfg : EmitterCfg) (st : EmitterState)
    (inp : FrameInput) (l : List FrameInput) (ht : inp.tickHot = false) :
    ((emitter_system cfg st inp).1.tickerIdx = st.tickerIdx + 1
      ∧ (emitter_system cfg st inp).1.tickDuration
          = cfg.ticklist.getD (st.tickerIdx % cfg.ticklist.length) 0)
    ∧ (st.remaining = 0 → ∀ sp ∈ (emitterRun cfg st (inp :: l)).2, sp = [])
    ∧ (cfg.ept.durDuration ≠ 0 → inp.durationCold = true →
        (∀ j ∈ l, j.durationCold = true) →
        ∀ sp ∈ (emitterRun cfg st (inp :: l)).2, sp = []) := by
  refine ⟨emitter_system_rearm ht, fun h0 => (emitterRun_zero _ h0).2,
    fun hd hc hl => emitterRun_durCold _ hd ?_⟩
  intro j hj
  rcases List.mem_cons.mp hj with h | h
  · exact h ▸ hc
  · exact hl j h

/-- Witness for C3: an exhausted emitter still advances its ticker while
spawning nothing. -/
theorem C3_rearm_unconditional_witness :
    ((emitter_system cfgA ⟨1/10, 0, 0⟩ inputA).1.tickerIdx = 0 + 1
      ∧ (emitter_system cfgA ⟨1/10, 0, 0⟩ inputA).1.tickDuration
          = cfgA.ticklist.getD (0 % cfgA.ticklist.length) 0)
    ∧ ∀ sp ∈ (emitterRun cfgA ⟨1/10, 0, 0⟩ [inputA]).2, sp = [] :=
  ⟨(C3_rearm_unconditional cfgA ⟨1/10, 0, 0⟩ inputA [] rfl).1,
   (C3_rearm_unconditional cfgA ⟨1/10, 0, 0⟩ inputA [] rfl).2.1 rfl⟩

/-- Emitter of the momentum-inheritance scenario: constant rate 3, zero
duration, inherit_momentum = 3 (both bits). -/
def cfgC4 : EmitterCfg := ⟨[1/10], ⟨0, 3, 3, id⟩, 3⟩

/-- Frame for the momentum-inheritance scenario: owning entity momentum
(5,0), zone momentum (0,3). -/
def inputC4 : FrameInput :=
  ⟨false, false, 0, false, 0, true, (5, 0), (0, 0), fun _ _ => ((0, 0), (0, 3))⟩

/-- C4: with inherit_momentum = 3, entity momentum (5,0) and zone momentum
(0,3) the momentum of every spawned particle is exactly (5,3); in general the
contribution of the entity is the zero vector when it lacks a momentum
component or bit 0 is unset (the composed momentum does not depend on the
entity momentum), and the contribution of the zone is the zero vector when
bit 1 is unset. -/
theorem C4_momentum_inheritance :
    ((emitter_system cfgC4 ⟨1/10, 0, -1⟩ inputC4).2.map Spawn.momentum
        = [(5, 3), (5, 3), (5, 3)])
    ∧ ∀ (inherit : ℕ) (hasM : Bool) (eM zM : ℚ × ℚ),
        ((inherit &&& 1 = 0 ∨ hasM = false) →
          composeMomentum inherit hasM eM zM
            = composeMomentum inherit hasM (0, 0) zM)
        ∧ (inherit &&& 2 = 0 →
          composeMomentum inherit hasM eM zM
            = composeMomentum inherit hasM eM (0, 0)) := by
  refine ⟨?_, fun inherit hasM eM zM => ⟨?_, ?_⟩⟩
  · norm_num [emitter_system, rearm, emitSpawn, eptCall, cfgC4, inputC4,
      truncQ, spawnBatch, composeMomentum, List.range_succ]
    decide
  · rintro (h | h) <;> simp [composeMomentum, h]
  · intro h
    simp [composeMomentum, h]

/-- Witness for C4: the concrete momenta of the three spawned particles. -/
theorem C4_momentum_inheritance_witness :
    (emitter_system cfgC4 ⟨1/10, 0, -1⟩ inputC4).2.map Spawn.momentum
      = [(5, 3), (5, 3), (5, 3)] :=
  C4_momentum_inheritance.1

/-- C5 counterexample: constructing an Emitter with an empty tick-interval
sequence succeeds (Emitter.__post_init__ raises nothing) and the ticker
falls back to cycling the single default tick value — so the claimed
construction-time rejection does not happen. -/
theorem C5_counterexample :
    (Emitter.postInit (1/10) [] none).ticker = [1/10]
    ∧ (Emitter.postInit (1/10) [] none).remaining = -1
    ∧ (Emitter.postInit (1/10) [] none).tickCold = true :=
  ⟨rfl, rfl, rfl⟩

/-- C5 amended: an empty tick-interval sequence is accepted at
construction and the heartbeat falls back to cycling the single tick
value. -/
theorem C5_empty_ticklist_fallback (tick : ℚ) (te : Option ℤ) :
    (Emitter.postInit tick [] te).ticker = [tick]
    ∧ (Emitter.postInit tick [] te).remaining = te.getD (-1) := by
  constructor <;> rfl

/-- Beam zone with v = (3,4), width 10; the Euclidean length of (4,3) is
exactly 5, so the pygame normalize is represented exactly. -/
def beamC6 : ZoneBeam := ⟨(3, 4), 10, 5⟩

/-- C6 (code evaluation at the failing input): the stored length really is
the Euclidean length of v, yet the momentum returned for rnd_p() = 0 and
rnd_m() = 0 is (-4,-3), whose dot product with v = (3,4) is -24 ≠ 0 — the
momentum is not perpendicular to the line vector, because the source swaps
the components of v instead of rotating them. -/
theorem C6_beam_momentum_not_perpendicular :
    beamC6.len * beamC6.len = dot beamC6.v beamC6.v
    ∧ 0 < beamC6.len
    ∧ (ZoneBeam.emit beamC6 0 0).2 = (-4, -3)
    ∧ dot (ZoneBeam.emit beamC6 0 0).2 beamC6.v = -24 := by
  refine ⟨by norm_num [beamC6, dot], by norm_num [beamC6], ?_, ?_⟩ <;>
    norm_num [beamC6, ZoneBeam.emit, ZoneBeam.w, dot, Prod.ext_iff]

/-- C7: with a zero-duration ept driver and no lifetime component on the
owning entity, whatever the frame does is a spawn batch built at
normalized time exactly 0 — the t handed to zone.emit and to the
particle_factory (recorded in each spawn) is 0. -/
theorem C7_normalized_time_zero (cfg : EmitterCfg) (st : EmitterState)
    (inp : FrameInput) (hd : cfg.ept.durDuration = 0)
    (hl : inp.hasLifetime = false) :
    ∃ n : ℕ, (emitter_system cfg st inp).2 = spawnBatch cfg inp 0 n := by
  simp only [emitter_system]
  split_ifs <;> first
    | exact ⟨0, rfl⟩
    | exact ⟨_, rfl⟩
    | simp_all

/-- Witness for C7: the aligned scenario frame spawns its batch at t = 0. -/
theorem C7_normalized_time_zero_witness :
    ∃ n : ℕ, (emitter_system cfgA ⟨1/10, 0, 5⟩ inputA).2
      = spawnBatch cfgA inputA 0 n :=
  C7_normalized_time_zero cfgA ⟨1/10, 0, 5⟩ inputA rfl rfl

/-- C8: with rotate and scale drivers absent and an alpha driver present,
any number of particle_rsai_system updates leaves rotate and scale
untouched while alpha tracks the current driver value; every update
clears the lock before returning, and its write sequence opens with
lock := true and closes with lock := false. -/
theorem C8_alpha_only_updates (r0 : RSAI) (alphas : List ℚ) :
    (rsaiAlphaIter r0 alphas).rotate = r0.rotate
    ∧ (rsaiAlphaIter r0 alphas).scale = r0.scale
    ∧ (rsaiAlphaIter r0 alphas).alpha = alphas.getLastD r0.alpha
    ∧ (alphas ≠ [] → (rsaiAlphaIter r0 alphas).lock = false)
    ∧ (∀ (p : ParticleFrame) (r : RSAI),
        (particle_rsai_system p r).lock = false)
    ∧ ∀ p : ParticleFrame,
        (rsaiWrites p).head? = some (RsaiWrite.lock true)
        ∧ (rsaiWrites p).getLast? = some (RsaiWrite.lock false) := by
  refine ⟨(rsaiAlphaIter_spec r0 alphas).1, (rsaiAlphaIter_spec r0 alphas).2.1,
    (rsaiAlphaIter_spec r0 alphas).2.2, ?_,
    particle_rsai_system_lock, rsaiWrites_bracket⟩
  intro h
  cases alphas with
  | nil => exact absurd rfl h
  | cons a as =>
    rw [rsaiAlphaIter_cons]
    exact rsaiAlphaIter_lock as rfl

/-- Witness for C8: one update with alpha 7 from a locked descriptor ends
unlocked with alpha 7 and rotate/scale untouched. -/
theorem C8_alpha_only_updates_witness :
    (rsaiAlphaIter ⟨1, 2, 3, true⟩ [7]).rotate = 1
    ∧ (rsaiAlphaIter ⟨1, 2, 3, true⟩ [7]).alpha = 7
    ∧ (rsaiAlphaIter ⟨1, 2, 3, true⟩ [7]).lock = false :=
  ⟨(C8_alpha_only_updates ⟨1, 2, 3, true⟩ [7]).1,
   (C8_alpha_only_updates ⟨1, 2, 3, true⟩ [7]).2.2.1,
   (C8_alpha_only_updates ⟨1, 2, 3, true⟩ [7]).2.2.2.1 (by decide)⟩

/-- C9 (code evaluation at the failing input): with the container at
(0,0,100,100), the sprite extent (10,-5,20,20) protruding above the top
edge and momentum (1,-3) still moving toward that edge, container_system
leaves both position and momentum unchanged — no reflection happens,
because the top-boundary guard of the source tests momentum.x < 0 instead
of momentum.y < 0. -/
theorem C9_container_top_not_reflected :
    container_system ⟨0, 0, 100, 100⟩ (20, 5) (1, -3) ⟨10, -5, 20, 20⟩
      = ((20, 5), (1, -3)) := by
  norm_num [container_system, PyRect.right, PyRect.bottom, Prod.ext_iff]

/-- C10: ZoneRect.emit truncates each coordinate toward zero (the position
is a pair of integers), and with samples in [0,1) and non-negative extent
each component stays within [-W/2, W/2] resp. [-H/2, H/2]. -/
theorem C10_rect_truncated_position (r : PyRect) (rp1 rp2 : ℚ)
    (hW : 0 ≤ r.width) (hH : 0 ≤ r.height)
    (h1 : 0 ≤ rp1) (h2 : rp1 < 1) (h3 : 0 ≤ rp2) (h4 : rp2 < 1) :
    (∃ a b : ℤ, (ZoneRect.emit r rp1 rp2).1 = ((a : ℚ), (b : ℚ)))
    ∧ -((r.width : ℚ) / 2) ≤ (ZoneRect.emit r rp1 rp2).1.1
    ∧ (ZoneRect.emit r rp1 rp2).1.1 ≤ (r.width : ℚ) / 2
    ∧ -((r.height : ℚ) / 2) ≤ (ZoneRect.emit r rp1 rp2).1.2
    ∧ (ZoneRect.emit r rp1 rp2).1.2 ≤ (r.height : ℚ) / 2 := by
  have hWq : (0 : ℚ) ≤ (r.width : ℚ) := by exact_mod_cast hW
  have hHq : (0 : ℚ) ≤ (r.height : ℚ) := by exact_mod_cast hH
  have bx := truncQ_bounds hWq h1 h2
  have by' := truncQ_bounds hHq h3 h4
  exact ⟨⟨truncQ ((r.width : ℚ) * (rp1 - 1/2)),
          truncQ ((r.height : ℚ) * (rp2 - 1/2)), rfl⟩,
    bx.1, bx.2, by'.1, by'.2⟩

/-- Witness for C10 on a 10 by 6 rectangle with samples 1/3 and 2/3. -/
theorem C10_rect_truncated_position_witness :
    (∃ a b : ℤ, (ZoneRect.emit ⟨0, 0, 10, 6⟩ (1/3) (2/3)).1
        = ((a : ℚ), (b : ℚ)))
    ∧ -(((10 : ℤ) : ℚ) / 2) ≤ (ZoneRect.emit ⟨0, 0, 10, 6⟩ (1/3) (2/3)).1.1
    ∧ (ZoneRect.emit ⟨0, 0, 10, 6⟩ (1/3) (2/3)).1.1 ≤ ((10 : ℤ) : ℚ) / 2
    ∧ -(((6 : ℤ) : ℚ) / 2) ≤ (ZoneRect.emit ⟨0, 0, 10, 6⟩ (1/3) (2/3)).1.2
    ∧ (ZoneRect.emit ⟨0, 0, 10, 6⟩ (1/3) (2/3)).1.2 ≤ ((6 : ℤ) : ℚ) / 2 :=
  C10_rect_truncated_position ⟨0, 0, 10, 6⟩ (1/3) (2/3)
    (by norm_num) (by norm_num) (by norm_num) (by norm_num) (by norm_num)
    (by norm_num)

end Swirly
